import Mathlib

/-!
Verification of the AkariNet Audio Console v3.3 core
(`audioConsole-3.3.0.js`): the wake-trigger tracker, the speech-segment
classifier (`_handleSpeech`), the command extractor (`_parse`), the
transcription wrapper (`_transcribeAndParse`) and the constructor's
option defaulting.  JavaScript strings are modelled as lists of
characters, timestamps (`Date.now()` milliseconds) as integers, and
classifier scores as rationals.
-/

namespace AudioConsole

/-- JavaScript strings, modelled as lists of characters. -/
abbrev Str := List Char

/-- `String.prototype.toLowerCase`, character-wise. -/
def jsToLower (s : Str) : Str := s.map Char.toLower

/-- `String.prototype.toUpperCase`, character-wise. -/
def jsToUpper (s : Str) : Str := s.map Char.toUpper

/-- The whitespace class `\s` (the characters relevant to this model). -/
def isJsSpace (c : Char) : Bool :=
  c = ' ' || c = '\t' || c = '\n' || c = '\r' || c = '\x0b' || c = '\x0c'

/-- `String.prototype.trim`: drop whitespace from both ends. -/
def jsTrim (s : Str) : Str :=
  ((s.dropWhile isJsSpace).reverse.dropWhile isJsSpace).reverse

/-- Scan of `String.prototype.indexOf`, carrying the current index. -/
def indexOfFrom (pat : Str) : Str → Nat → Option Nat
  | [], i => if pat.isEmpty then some i else none
  | c :: t, i =>
    if pat.isPrefixOf (c :: t) then some i else indexOfFrom pat t (i + 1)

/-- `hay.indexOf(pat)`; `none` models the return value `-1`. -/
def jsIndexOf (hay pat : Str) : Option Nat := indexOfFrom pat hay 0

/-- The word-character class `\w`: alphanumerics and underscore. -/
def isWordChar (c : Char) : Bool := c.isAlphanum || c = '_'

/-- Characters kept by the cleanup regex `[^\w\s\+\-\*\/\(\)\.]`. -/
def isCleanupKept (c : Char) : Bool :=
  isWordChar c || isJsSpace c || c = '+' || c = '-' || c = '*' ||
    c = '/' || c = '(' || c = ')' || c = '.'

/-- `cmd.replace(/[^\w\s\+\-\*\/\(\)\.]/g, ' ')`: every character outside
the kept class becomes a single space. -/
def replaceDisallowed (s : Str) : Str :=
  s.map (fun c => if isCleanupKept c then c else ' ')

/-- `cmd.replace(/\s+/g, ' ')`: each maximal whitespace run becomes one
space. -/
def collapseWs : Str → Str
  | [] => []
  | [c] => [if isJsSpace c then ' ' else c]
  | c :: d :: t =>
    if isJsSpace c && isJsSpace d then collapseWs (d :: t)
    else (if isJsSpace c then ' ' else c) :: collapseWs (d :: t)

/-- The cleanup chain of `_parse`:
`.replace(/[^\w\s\+\-\*\/\(\)\.]/g, ' ').replace(/\s+/g, ' ').trim()`. -/
def jsClean (s : Str) : Str := jsTrim (collapseWs (replaceDisallowed s))

/-- Configuration fields consumed by the core (already defaulted). -/
structure Config where
  wakewords : List Str
  wakesoundThreshold : ℚ
  wakesoundIndex : Nat
  wakesoundDelay : Int
  cleanup : Bool
  requireWakeSound : Bool
deriving DecidableEq

/-- The wake-word loop of `_parse`: walk the configured list in order;
for the first word whose lower-cased form occurs in `lower`, return the
text after its first occurrence, trimmed.  Both branches of `_parse`
(sound-triggered or not) run this same loop. -/
def findWakeCmd (wakewords : List Str) (lower : Str) : Option Str :=
  match wakewords with
  | [] => none
  | w :: rest =>
    match jsIndexOf lower (jsToLower w) with
    | some idx => some (jsTrim (lower.drop (idx + w.length)))
    | none => findWakeCmd rest lower

/-- Outcome of `_parse`: either a `speechdiscarded` rejection (no wake
word) or a dispatched `result` event payload. -/
inductive CommandResult where
  | rejected
  | accepted (text original : Str) (viaSound : Bool)
deriving DecidableEq

/-- Whether a `CommandResult` is an accepted command. -/
def CommandResult.isAccepted : CommandResult → Bool
  | .rejected => false
  | .accepted _ _ _ => true

/-- `_parse(raw, wakeSoundDetected)`: lower-case, run the wake-word
loop, reject when no wake word was found and the segment was not
sound-triggered, otherwise clean up (if enabled), upper-case and accept. -/
def parse (cfg : Config) (raw : Str) (wakeSoundDetected : Bool) : CommandResult :=
  let lower := jsToLower raw
  let found := findWakeCmd cfg.wakewords lower
  let wakeWordFound := wakeSoundDetected || found.isSome
  let cmd := found.getD lower
  if wakeWordFound = false then CommandResult.rejected
  else
    CommandResult.accepted
      (jsToUpper (if cfg.cleanup then jsClean cmd else cmd)) raw wakeSoundDetected

/-- `_parse` together with its effect on `this.wakeSoundDetectedTime`:
the trailing `if (wakeWordFound) this.wakeSoundDetectedTime = null`
runs exactly on the accepted path. -/
def parseRun (cfg : Config) (st : Option Int) (raw : Str)
    (wakeSoundDetected : Bool) : CommandResult × Option Int :=
  match parse cfg raw wakeSoundDetected with
  | CommandResult.rejected => (CommandResult.rejected, st)
  | r => (r, none)

/-- Reasons of the `speechdiscarded` branches of `_handleSpeech`. -/
inductive DiscardReason where
  | tooShort
  | waitingForWakeSound
deriving DecidableEq

/-- The decision `_handleSpeech` makes for one segment. -/
inductive Decision where
  | discard (reason : DiscardReason)
  | transcribe (audio : List Int) (viaSound : Bool)
deriving DecidableEq

/-- `now - this.wakeSoundDetectedTime`; `none` models `Infinity` (the
value used when no wake sound was ever detected). -/
def timeSinceWakeSound (trigger : Option Int) (now : Int) : Option Int :=
  trigger.map (fun t => now - t)

/-- `timeSinceWakeSound < this.config.wakesoundDelay`; a comparison
against `Infinity` is always false. -/
def inSession (trigger : Option Int) (now delay : Int) : Bool :=
  match timeSinceWakeSound trigger now with
  | none => false
  | some d => decide (d < delay)

/-- The decision logic of `_handleSpeech` after the synchronization
wait: trim and transcribe when in session, otherwise transcribe plainly
or discard per `requireWakeSound`.  `now` is `Date.now()` read after the
wait. -/
def classify (cfg : Config) (trigger : Option Int)
    (speechStartTime now : Int) (audio : List Int) : Decision :=
  if inSession trigger now cfg.wakesoundDelay then
    match trigger with
    | some t =>
      if t ≥ speechStartTime then
        let offsetMs := t - speechStartTime
        let trimSamples := offsetMs * 16000 / 1000
        if trimSamples < (audio.length : Int) then
          Decision.transcribe (audio.drop trimSamples.toNat) true
        else Decision.transcribe audio true
      else Decision.transcribe audio true
    | none => Decision.transcribe audio true
  else if cfg.requireWakeSound = false then Decision.transcribe audio false
  else Decision.discard DiscardReason.waitingForWakeSound

/-- Result of `_handleSpeech`: the decision, and whether the
synchronization wait loop was reached at all. -/
structure HandleOutcome where
  decision : Decision
  enteredWait : Bool
deriving DecidableEq

/-- `_handleSpeech(audio)`: segments shorter than 2000 samples are
discarded before the synchronization wait; all others go through the
wait and then `classify`. -/
def handleSpeech (cfg : Config) (trigger : Option Int)
    (speechStartTime now : Int) (audio : List Int) : HandleOutcome :=
  if audio.length < 2000 then
    HandleOutcome.mk (Decision.discard DiscardReason.tooShort) false
  else
    HandleOutcome.mk (classify cfg trigger speechStartTime now audio) true

/-- Tracker state: `this.wakeSoundDetectedTime` and
`this.lastWakeSoundScore`. -/
structure TrackerState where
  wakeSoundDetectedTime : Option Int
  lastWakeSoundScore : ℚ
deriving DecidableEq

/-- Payload of the `wakesound` event. -/
structure WakeSoundEvent where
  score : ℚ
  classLabel : Str
  timestamp : Int
deriving DecidableEq

/-- The `recognizer.listen` callback of
`_startContinuousWakeSoundListening`, for one delivered target score:
update the tracker and emit a `wakesound` event exactly when
`targetScore > wakesoundThreshold && targetScore < 1.62`. -/
def onWakeSoundScore (cfg : Config) (st : TrackerState) (classLabels : List Str)
    (targetScore : ℚ) (now : Int) : TrackerState × Option WakeSoundEvent :=
  if cfg.wakesoundThreshold < targetScore ∧ targetScore < 162 / 100 then
    (TrackerState.mk (some now) targetScore,
      some (WakeSoundEvent.mk targetScore
        (classLabels.getD cfg.wakesoundIndex []) now))
  else (st, none)

/-- Outcome of the ASR call: a transcription, or a thrown error. -/
inductive AsrOutcome where
  | ok (text : Str)
  | err (msg : Str)
deriving DecidableEq

/-- The externally visible events `_transcribeAndParse` and `_parse` can
dispatch for one segment. -/
inductive PipelineEvent where
  | errorEvent (msg : Str)
  | discardedEmpty
  | discardedNoWakeWord
  | resultEvent (text original : Str) (viaSound : Bool)
deriving DecidableEq

/-- `_transcribeAndParse(audio, wakeSoundDetected)` given the ASR call's
outcome: a throw becomes an `error` event, an empty text a
`speechdiscarded` (empty recognition), otherwise `_parse` runs.  Returns
the dispatched events and the new `wakeSoundDetectedTime`. -/
def transcribeAndParse (cfg : Config) (st : Option Int) (asr : AsrOutcome)
    (wakeSoundDetected : Bool) : List PipelineEvent × Option Int :=
  match asr with
  | AsrOutcome.err m => ([PipelineEvent.errorEvent m], st)
  | AsrOutcome.ok t =>
    if t.isEmpty then ([PipelineEvent.discardedEmpty], st)
    else
      match parseRun cfg st t wakeSoundDetected with
      | (CommandResult.rejected, st2) => ([PipelineEvent.discardedNoWakeWord], st2)
      | (CommandResult.accepted txt orig vs, st2) =>
        ([PipelineEvent.resultEvent txt orig vs], st2)

/-- Constructor options as passed in: `none` models an omitted key. -/
structure RawOptions where
  wakesoundThreshold : Option ℚ
  wakesoundIndex : Option Nat
  wakesoundDuration : Option Int
  wakesoundDelay : Option Int
  vadThreshold : Option ℚ
  cleanup : Option Bool
  debugWakeSound : Option Bool
  requireWakeSound : Option Bool
deriving DecidableEq

/-- JavaScript `config.x || d` for a rational option: `0` is falsy. -/
def jsOrQ (v : Option ℚ) (d : ℚ) : ℚ :=
  match v with
  | none => d
  | some x => if x = 0 then d else x

/-- JavaScript `config.x || d` for a numeric index option: `0` is falsy. -/
def jsOrNat (v : Option Nat) (d : Nat) : Nat :=
  match v with
  | none => d
  | some x => if x = 0 then d else x

/-- JavaScript `config.x || d` for an integer option: `0` is falsy. -/
def jsOrInt (v : Option Int) (d : Int) : Int :=
  match v with
  | none => d
  | some x => if x = 0 then d else x

/-- JavaScript `config.x || d` for a boolean option. -/
def jsOrBool (v : Option Bool) (d : Bool) : Bool :=
  match v with
  | none => d
  | some b => b || d

/-- The defaulted option values the constructor stores in
`this.config`. -/
structure ResolvedOptions where
  wakesoundThreshold : ℚ
  wakesoundIndex : Nat
  wakesoundDuration : Int
  wakesoundDelay : Int
  vadThreshold : ℚ
  cleanup : Bool
  debugWakeSound : Bool
  requireWakeSound : Bool
deriving DecidableEq

/-- The defaulting performed by the constructor: `||` defaults for the
numeric and boolean options, and the explicit
`config.cleanup !== undefined ? config.cleanup : true` test for
`cleanup`. -/
def resolveOptions (c : RawOptions) : ResolvedOptions :=
  ResolvedOptions.mk
    (jsOrQ c.wakesoundThreshold (75 / 100))
    (jsOrNat c.wakesoundIndex 2)
    (jsOrInt c.wakesoundDuration 1000)
    (jsOrInt c.wakesoundDelay 0)
    (jsOrQ c.vadThreshold (75 / 100))
    (c.cleanup.getD true)
    (jsOrBool c.debugWakeSound false)
    (jsOrBool c.requireWakeSound false)

/-- Claim C3 credits the cleanup step with *stripping* the disallowed
characters.  Modelled from the claim's words: keep only alphanumerics,
whitespace and the symbols, deleting everything else, then collapse
whitespace, trim and upper-case. -/
def specStripKeep (c : Char) : Bool :=
  c.isAlphanum || isJsSpace c || c = '+' || c = '-' || c = '*' ||
    c = '/' || c = '(' || c = ')' || c = '.'

/-- The cleanup pipeline as claim C3 words it (strip, collapse, trim,
upper-case). -/
def specStripCleanup (s : Str) : Str :=
  jsToUpper (jsTrim (collapseWs (s.filter specStripKeep)))

/-- Shared concrete audio input for witnesses and counterexamples. -/
def audio2000 : List Int := List.replicate 2000 0

/-- A configuration with the single wake word "jarvis". -/
def cfgJarvis : Config := Config.mk ["jarvis".toList] (3 / 4) 2 500 true false

/-- A configuration with the wake-word list ["computer", "jarvis"]. -/
def cfgBoth : Config :=
  Config.mk ["computer".toList, "jarvis".toList] (3 / 4) 2 500 true false

/-- A configuration with `wakesoundDelay = 0`. -/
def cfgDelay0 : Config := Config.mk [] (3 / 4) 2 0 true false

/-- A transcription whose command part contains an underscore and a
disallowed character. -/
def raw3 : Str := "jarvis a_b@c".toList

/-- A transcription containing both configured wake words, "jarvis"
first in the text. -/
def raw4 : Str := "jarvis ask computer time".toList

/-- Raw constructor options with the numeric options explicitly `0` and
the boolean options explicitly `false`. -/
def rawZeros : RawOptions :=
  RawOptions.mk (some 0) (some 0) none none (some 0) (some false)
    (some false) (some false)

theorem indexOfFrom_isSome (pat hay : Str) (i : Nat) :
    (indexOfFrom pat hay i).isSome = true ↔ pat <:+: hay := by
  induction hay generalizing i with
  | nil =>
    by_cases h : pat = [] <;> simp [indexOfFrom, h]
  | cons c t ih =>
    simp only [indexOfFrom]
    by_cases h : pat.isPrefixOf (c :: t)
    · simp only [h, if_true, Option.isSome_some, true_iff]
      exact ( List.isPrefixOf_iff_prefix.mp h).isInfix
    · simp only [h, if_false, Bool.false_eq_true, ih, List.infix_cons_iff]
      constructor
      · exact Or.inr
      · rintro (hp | hi)
        · exact absurd ( List.isPrefixOf_iff_prefix.mpr hp) (by simp [h])
        · exact hi

theorem indexOfFrom_first (pat : Str) (hay : Str) (i j : Nat)
    (h : indexOfFrom pat hay i = some j) :
    ∃ k, j = i + k ∧ pat <+: hay.drop k ∧ ∀ m, m < k → ¬ pat <+: hay.drop m := by
  induction hay generalizing i with
  | nil =>
    simp only [indexOfFrom] at h
    by_cases hp : pat = []
    · refine ⟨0, ?_, ?_, ?_⟩
      · simp [hp] at h; omega
      · simp [hp]
      · omega
    · simp [hp] at h
  | cons c t ih =>
    simp only [indexOfFrom] at h
    by_cases hp : pat.isPrefixOf (c :: t)
    · refine ⟨0, ?_, ?_, ?_⟩
      · simp [hp] at h; omega
      · simpa using List.isPrefixOf_iff_prefix.mp hp
      · omega
    · simp only [hp, if_false, Bool.false_eq_true] at h
      obtain ⟨k, hk, hpre, hmin⟩ := ih (i + 1) h
      refine ⟨k + 1, by omega, by simpa using hpre, ?_⟩
      intro m hm
      match m with
      | 0 =>
        simpa using fun hc => hp ( List.isPrefixOf_iff_prefix.mpr hc)
      | m' + 1 =>
        simpa using hmin m' (by omega)

theorem jsIndexOf_isSome (hay pat : Str) :
    (jsIndexOf hay pat).isSome = true ↔ pat <:+: hay :=
  indexOfFrom_isSome pat hay 0

theorem jsIndexOf_none (hay pat : Str) (h : ¬ pat <:+: hay) :
    jsIndexOf hay pat = none := by
  have := (jsIndexOf_isSome hay pat).not.mpr h
  simpa [Option.not_isSome_iff_eq_none] using this

theorem jsIndexOf_spec (hay pat : Str) (idx : Nat)
    (h : jsIndexOf hay pat = some idx) :
    pat <+: hay.drop idx ∧ ∀ m, m < idx → ¬ pat <+: hay.drop m := by
  obtain ⟨k, hk, hpre, hmin⟩ := indexOfFrom_first pat hay 0 idx h
  exact ⟨by rwa [show k = idx by omega] at hpre,
    fun m hm => hmin m (by omega)⟩

theorem findWakeCmd_isSome (ws : List Str) (lower : Str) :
    (findWakeCmd ws lower).isSome = true ↔
      ∃ w ∈ ws, jsToLower w <:+: lower := by
  induction ws with
  | nil => simp [findWakeCmd]
  | cons w rest ih =>
    simp only [findWakeCmd]
    cases h : jsIndexOf lower (jsToLower w) with
    | some idx =>
      simp only [Option.isSome_some, true_iff]
      exact ⟨w, by simp, (jsIndexOf_isSome lower (jsToLower w)).mp (by simp [h])⟩
    | none =>
      have hni : ¬ jsToLower w <:+: lower := by
        rw [← jsIndexOf_isSome lower (jsToLower w), h]
        simp
      simp [ih, hni]

theorem findWakeCmd_first (ws : List Str) (lower : Str) (w : Str)
    (hfind : ws.find? (fun u => decide (jsToLower u <:+: lower)) = some w) :
    ∃ idx, jsIndexOf lower (jsToLower w) = some idx ∧
      jsToLower w <+: lower.drop idx ∧
      (∀ m, m < idx → ¬ jsToLower w <+: lower.drop m) ∧
      findWakeCmd ws lower = some (jsTrim (lower.drop (idx + w.length))) := by
  induction ws with
  | nil => simp at hfind
  | cons u rest ih =>
    by_cases hp : jsToLower u <:+: lower
    · rw [List.find?_cons_of_pos _ (by simpa using hp)] at hfind
      have hw : u = w := by simpa using hfind
      subst hw
      have hs : (jsIndexOf lower (jsToLower u)).isSome = true :=
        (jsIndexOf_isSome lower (jsToLower u)).mpr hp
      obtain ⟨idx, heq⟩ := Option.isSome_iff_exists.mp hs
      obtain ⟨hpre, hmin⟩ := jsIndexOf_spec lower (jsToLower u) idx heq
      exact ⟨idx, heq, hpre, hmin, by simp [findWakeCmd, heq]⟩
    · rw [List.find?_cons_of_neg _ (by simpa using hp)] at hfind
      have hnone : jsIndexOf lower (jsToLower u) = none :=
        jsIndexOf_none lower (jsToLower u) hp
      obtain ⟨idx, heq, hpre, hmin, hcmd⟩ := ih hfind
      exact ⟨idx, heq, hpre, hmin, by simp [findWakeCmd, hnone, hcmd]⟩

/-- Claim C8: a segment with fewer than 2000 samples is discarded as too
short immediately, for every trigger state and configuration, without
reaching the synchronization wait. -/
theorem too_short_discard (cfg : Config) (trigger : Option Int)
    (sst now : Int) (audio : List Int) (h : audio.length < 2000) :
    handleSpeech cfg trigger sst now audio =
      HandleOutcome.mk (Decision.discard DiscardReason.tooShort) false := by
  simp [handleSpeech, h]

/-- Witness for C8: a 1999-sample segment is discarded as too short. -/
theorem too_short_discard_witness :
    (List.replicate 1999 (0 : Int)).length < 2000 ∧
      handleSpeech cfgJarvis (some 7) 0 5 (List.replicate 1999 0) =
        HandleOutcome.mk (Decision.discard DiscardReason.tooShort) false := by
  have h : (List.replicate 1999 (0 : Int)).length < 2000 := by
    simp only [List.length_replicate]
    omega
  exact ⟨h, too_short_discard cfgJarvis (some 7) 0 5 _ h⟩

/-- Claim C6: with no wake trigger and a segment of at least 2000
samples, the decision is plain transcription (untrimmed, viaSound false)
when `requireWakeSound` is off and a waiting-for-wake-sound discard when
it is on. -/
theorem no_trigger_decision (cfg : Config) (sst now : Int) (audio : List Int)
    (h : 2000 ≤ audio.length) :
    handleSpeech cfg none sst now audio =
      HandleOutcome.mk
        (if cfg.requireWakeSound then Decision.discard DiscardReason.waitingForWakeSound
          else Decision.transcribe audio false) true := by
  have h2 : ¬ audio.length < 2000 := by omega
  simp only [handleSpeech, classify, inSession, timeSinceWakeSound, h2, if_false]
  cases hr : cfg.requireWakeSound <;> simp [hr]

/-- Witness for C6: a 2000-sample segment with no trigger is transcribed
untrimmed with viaSound false when `requireWakeSound` is off. -/
theorem no_trigger_decision_witness :
    2000 ≤ audio2000.length ∧
      handleSpeech cfgJarvis none 0 5 audio2000 =
        HandleOutcome.mk (Decision.transcribe audio2000 false) true := by
  have h : 2000 ≤ audio2000.length := by
    simp only [audio2000, List.length_replicate]
    omega
  refine ⟨h, ?_⟩
  rw [no_trigger_decision cfgJarvis 0 5 audio2000 h]
  simp [cfgJarvis]

/-- Claim C5 (amended): when `wakesoundDelay = 0` and the recorded
trigger does not postdate the classification time, in-session is false
and the decision is never a sound-triggered transcription: it is the
too-short discard, the waiting discard, or a plain transcription per
`requireWakeSound`. -/
theorem zero_delay_never_via_sound (cfg : Config) (trigger : Option Int)
    (sst now : Int) (audio : List Int)
    (hdelay : cfg.wakesoundDelay = 0)
    (ht : ∀ t, trigger = some t → t ≤ now) :
    inSession trigger now cfg.wakesoundDelay = false ∧
      (handleSpeech cfg trigger sst now audio).decision =
        (if audio.length < 2000 then Decision.discard DiscardReason.tooShort
          else if cfg.requireWakeSound then Decision.discard DiscardReason.waitingForWakeSound
          else Decision.transcribe audio false) := by
  have hsess : inSession trigger now cfg.wakesoundDelay = false := by
    cases trigger with
    | none => simp [inSession, timeSinceWakeSound]
    | some t =>
      have := ht t rfl
      simp only [inSession, timeSinceWakeSound, hdelay, Option.map_some]
      simp
      omega
  refine ⟨hsess, ?_⟩
  by_cases hlen : audio.length < 2000
  · simp [handleSpeech, hlen]
  · simp only [handleSpeech, hlen, if_false, classify, hsess]
    cases hr : cfg.requireWakeSound <;> simp [hr, hlen]

/-- Witness for C5: delay 0, trigger at 5, classification at 10 — not in
session, and the 2000-sample segment is transcribed with viaSound false. -/
theorem zero_delay_never_via_sound_witness :
    cfgDelay0.wakesoundDelay = 0 ∧
      inSession (some 5) 10 cfgDelay0.wakesoundDelay = false ∧
      (handleSpeech cfgDelay0 (some 5) 0 10 audio2000).decision =
        Decision.transcribe audio2000 false := by
  have h := zero_delay_never_via_sound cfgDelay0 (some 5) 0 10 audio2000 rfl
    (by intro t het; injection het with h2; omega)
  refine ⟨rfl, h.1, ?_⟩
  rw [h.2]
  have hlen : audio2000.length = 2000 := by
    simp only [audio2000, List.length_replicate]
  simp [hlen, cfgDelay0]

/-- Counterexample for C5 as stated: with `wakesoundDelay = 0` and a
trigger timestamp later than the classification time (wall clocks can
produce this state), in-session is true and the decision is a
sound-triggered transcription. -/
theorem future_trigger_in_session_cex :
    cfgDelay0.wakesoundDelay = 0 ∧
      inSession (some 100) 0 cfgDelay0.wakesoundDelay = true ∧
      (handleSpeech cfgDelay0 (some 100) 0 0 audio2000).decision =
        Decision.transcribe (audio2000.drop 1600) true := by
  have hlen : audio2000.length = 2000 := by
    simp only [audio2000, List.length_replicate]
  refine ⟨rfl, by decide, ?_⟩
  simp [handleSpeech, classify, inSession, timeSinceWakeSound, hlen, cfgDelay0]

/-- Claim C1 (amended): for a segment of at least 2000 samples whose
wake trigger lies in the half-open window from `speechStartTime` to the
segment end, with `wakesoundDelay > 0` and classification occurring
while the segment is still in session, the decision is a sound-triggered
transcription with exactly `16 * (trigger - speechStartTime)` leading
samples (that is, `floor(offsetMs / 1000 * 16000)`) removed. -/
theorem in_session_trim (cfg : Config) (t sst now : Int) (audio : List Int)
    (hlen : 2000 ≤ audio.length)
    (hts : sst ≤ t)
    (hdur : 16 * (t - sst) < (audio.length : Int))
    (hdelay : 0 < cfg.wakesoundDelay)
    (hsess : now - t < cfg.wakesoundDelay) :
    handleSpeech cfg (some t) sst now audio =
      HandleOutcome.mk
        (Decision.transcribe (audio.drop (16 * (t - sst)).toNat) true) true := by
  have h2 : ¬ audio.length < 2000 := by omega
  have hdiv : (t - sst) * 16000 / 1000 = 16 * (t - sst) := by
    rw [show (t - sst) * 16000 = 16 * (t - sst) * 1000 by ring]
    exact Int.mul_ediv_cancel _ (by norm_num)
  simp [handleSpeech, h2, classify, inSession, timeSinceWakeSound, hsess,
    hts, hdiv, hdur]

/-- Witness for C1 (amended), the spec's own scenario: delay 500,
trigger at 1000, segment started at 900, classification at 1100 — the
decision trims 1600 samples and transcribes with viaSound true. -/
theorem in_session_trim_witness :
    2000 ≤ audio2000.length ∧ (900 : Int) ≤ 1000 ∧
      16 * ((1000 : Int) - 900) < (audio2000.length : Int) ∧
      (0 : Int) < cfgJarvis.wakesoundDelay ∧
      (1100 : Int) - 1000 < cfgJarvis.wakesoundDelay ∧
      handleSpeech cfgJarvis (some 1000) 900 1100 audio2000 =
        HandleOutcome.mk
          (Decision.transcribe (audio2000.drop 1600) true) true := by
  have hlen : audio2000.length = 2000 := by
    simp only [audio2000, List.length_replicate]
  refine ⟨by omega, by omega, by rw [hlen]; norm_num, by norm_num [cfgJarvis],
    by norm_num [cfgJarvis], ?_⟩
  have h := in_session_trim cfgJarvis 1000 900 1100 audio2000 (by omega)
    (by omega) (by rw [hlen]; norm_num) (by norm_num [cfgJarvis])
    (by norm_num [cfgJarvis])
  rw [h]
  simp

/-- Counterexample for C1 as stated: the trigger at 1000 lies inside the
segment window (start 900, 2000 samples = 125 ms) and the delay 500 is
positive, yet classification at time 10000 is out of session, so the
decision is a plain untrimmed transcription with viaSound false, not the
trimmed sound-triggered one the claim requires. -/
theorem stale_trigger_cex :
    handleSpeech cfgJarvis (some 1000) 900 10000 audio2000 =
      HandleOutcome.mk (Decision.transcribe audio2000 false) true ∧
      Decision.transcribe audio2000 false ≠
        Decision.transcribe (audio2000.drop 1600) true := by
  have hlen : audio2000.length = 2000 := by
    simp only [audio2000, List.length_replicate]
  constructor
  · simp [handleSpeech, classify, inSession, timeSinceWakeSound, hlen, cfgJarvis]
  · simp

/-- Claim C2 (amended): the command extractor clears
`wakeSoundDetectedTime` on every acceptance — sound-triggered or
text-wake-word — and leaves it unchanged exactly on rejection. -/
theorem trigger_cleared_iff_accepted (cfg : Config) (st : Option Int)
    (raw : Str) (v : Bool) :
    (parseRun cfg st raw v).2 =
      if v = true ∨ ∃ w ∈ cfg.wakewords, jsToLower w <:+: jsToLower raw then
        none
      else st := by
  cases v with
  | true => simp [parseRun, parse]
  | false =>
    cases hf : findWakeCmd cfg.wakewords (jsToLower raw) with
    | some c =>
      have hex : ∃ w ∈ cfg.wakewords, jsToLower w <:+: jsToLower raw :=
        (findWakeCmd_isSome cfg.wakewords (jsToLower raw)).mp (by simp [hf])
      simp [parseRun, parse, hf, hex]
    | none =>
      have hnex : ¬ ∃ w ∈ cfg.wakewords, jsToLower w <:+: jsToLower raw := by
        rw [← findWakeCmd_isSome cfg.wakewords (jsToLower raw), hf]
        simp
      simp [parseRun, parse, hf, hnex]

/-- Witness for C2 (amended): a sound-triggered acceptance clears the
trigger. -/
theorem trigger_cleared_iff_accepted_witness :
    (parseRun cfgJarvis (some 5) ("hello".toList) true).2 = none := by
  rw [trigger_cleared_iff_accepted cfgJarvis (some 5) ("hello".toList) true]
  simp

/-- Counterexample for C2 as stated: a command accepted via a text wake
word (viaSound false) also resets the live trigger timestamp to absent,
so extraction does not leave it unchanged. -/
theorem text_command_clears_trigger_cex :
    parseRun cfgJarvis (some 5) ("jarvis on".toList) false =
      (CommandResult.accepted ("ON".toList) ("jarvis on".toList) false, none) ∧
      (parseRun cfgJarvis (some 5) ("jarvis on".toList) false).2 ≠ some 5 := by
  constructor <;> decide

/-- Claim C3 (amended): with cleanup enabled, the accepted text is the
extracted command with every character outside word characters
(alphanumerics and underscore), whitespace and `+ - * / ( ) .` replaced
by a space, whitespace runs collapsed, ends trimmed, and the result
upper-cased; the original field keeps the raw transcription with its
casing. -/
theorem cleanup_replaces_with_space (cfg : Config) (raw : Str) (v : Bool)
    (txt orig : Str) (vs : Bool)
    (hc : cfg.cleanup = true)
    (h : parse cfg raw v = CommandResult.accepted txt orig vs) :
    txt = jsToUpper (jsClean
        ((findWakeCmd cfg.wakewords (jsToLower raw)).getD (jsToLower raw))) ∧
      orig = raw ∧ vs = v := by
  simp only [parse, hc, if_true] at h
  split at h
  · simp at h
  · simp only [CommandResult.accepted.injEq] at h
    exact ⟨h.1.symm, h.2.1.symm, h.2.2.symm⟩

/-- Witness for C3 (amended): the command "a_b@c" cleans to "A_B C" (the
underscore survives, the at-sign becomes a space). -/
theorem cleanup_replaces_with_space_witness :
    cfgJarvis.cleanup = true ∧
      parse cfgJarvis raw3 false =
        CommandResult.accepted ("A_B C".toList) raw3 false ∧
      ("A_B C".toList : Str) =
        jsToUpper (jsClean
          ((findWakeCmd cfgJarvis.wakewords (jsToLower raw3)).getD
            (jsToLower raw3))) := by
  have hp : parse cfgJarvis raw3 false =
      CommandResult.accepted ("A_B C".toList) raw3 false := by decide
  exact ⟨rfl, hp,
    (cleanup_replaces_with_space cfgJarvis raw3 false _ _ _ rfl hp).1⟩

/-- Counterexample for C3 as stated: for the command "a_b@c" the code
yields "A_B C" while the claim's strip-then-collapse pipeline yields
"ABC" — the code replaces disallowed characters with spaces instead of
deleting them, and keeps the underscore. -/
theorem cleanup_not_strip_cex :
    parse cfgJarvis raw3 false =
      CommandResult.accepted ("A_B C".toList) raw3 false ∧
      specStripCleanup ("a_b@c".toList) = "ABC".toList ∧
      ("A_B C".toList : Str) ≠ "ABC".toList :=
  ⟨by decide, by decide, by decide⟩

/-- Claim C4: with viaSound false, extraction accepts exactly when some
configured wake word occurs in the lower-cased text (otherwise it
rejects), the matched word is the first in configured-list order, and
the command is everything after that word's first occurrence, trimmed. -/
theorem extraction_text_wake (cfg : Config) (raw : Str) :
    ((parse cfg raw false).isAccepted = true ↔
      ∃ w ∈ cfg.wakewords, jsToLower w <:+: jsToLower raw)
    ∧ ((¬ ∃ w ∈ cfg.wakewords, jsToLower w <:+: jsToLower raw) →
        parse cfg raw false = CommandResult.rejected)
    ∧ (∀ w, cfg.wakewords.find?
          (fun u => decide (jsToLower u <:+: jsToLower raw)) = some w →
        ∃ idx, jsIndexOf (jsToLower raw) (jsToLower w) = some idx ∧
          jsToLower w <+: (jsToLower raw).drop idx ∧
          (∀ m, m < idx → ¬ jsToLower w <+: (jsToLower raw).drop m) ∧
          findWakeCmd cfg.wakewords (jsToLower raw) =
            some (jsTrim ((jsToLower raw).drop (idx + w.length)))) := by
  refine ⟨?_, ?_, ?_⟩
  · cases hf : findWakeCmd cfg.wakewords (jsToLower raw) with
    | some c =>
      have hex : ∃ w ∈ cfg.wakewords, jsToLower w <:+: jsToLower raw :=
        (findWakeCmd_isSome cfg.wakewords (jsToLower raw)).mp (by simp [hf])
      simp [parse, hf, CommandResult.isAccepted, hex]
    | none =>
      have hnex : ¬ ∃ w ∈ cfg.wakewords, jsToLower w <:+: jsToLower raw := by
        rw [← findWakeCmd_isSome cfg.wakewords (jsToLower raw), hf]
        simp
      simp [parse, hf, CommandResult.isAccepted, hnex]
  · intro hnex
    have hf : findWakeCmd cfg.wakewords (jsToLower raw) = none := by
      have := (findWakeCmd_isSome cfg.wakewords (jsToLower raw)).not.mpr hnex
      simpa [Option.not_isSome_iff_eq_none] using this
    simp [parse, hf]
  · intro w hfind
    exact findWakeCmd_first cfg.wakewords (jsToLower raw) w hfind

/-- Witness for C4, the spec's own scenario: with wake words
["computer", "jarvis"] and text "jarvis ask computer time", extraction
accepts, matches "computer" (first in list order although "jarvis"
occurs earlier in the text), and the command is "time". -/
theorem extraction_text_wake_witness :
    (parse cfgBoth raw4 false).isAccepted = true ∧
      cfgBoth.wakewords.find?
          (fun u => decide (jsToLower u <:+: jsToLower raw4)) =
        some ("computer".toList) ∧
      findWakeCmd cfgBoth.wakewords (jsToLower raw4) =
        some ("time".toList) := by
  have h := extraction_text_wake cfgBoth raw4
  have hfind : cfgBoth.wakewords.find?
      (fun u => decide (jsToLower u <:+: jsToLower raw4)) =
        some ("computer".toList) := by decide
  refine ⟨h.1.mpr ⟨"computer".toList, by decide, by decide⟩, hfind, ?_⟩
  obtain ⟨idx, heq, hpre, hmin, hcmd⟩ := h.2.2 ("computer".toList) hfind
  have hidx : idx = 11 := by
    have h11 : jsIndexOf (jsToLower raw4) (jsToLower ("computer".toList)) =
        some 11 := by decide
    rw [heq] at h11
    exact Option.some_inj.mp h11
  rw [hcmd, hidx]
  decide

/-- Claim C7: the wake-sound callback records a new trigger and emits a
`wakesound` event exactly when the score strictly exceeds the threshold
and is strictly below 1.62; any other score leaves the tracker unchanged
and emits nothing. -/
theorem wake_score_gate (cfg : Config) (st : TrackerState) (labels : List Str)
    (score : ℚ) (now : Int) :
    ((onWakeSoundScore cfg st labels score now).2.isSome = true ↔
      (cfg.wakesoundThreshold < score ∧ score < 162 / 100))
    ∧ (cfg.wakesoundThreshold < score → score < 162 / 100 →
        onWakeSoundScore cfg st labels score now =
          (TrackerState.mk (some now) score,
            some (WakeSoundEvent.mk score
              (labels.getD cfg.wakesoundIndex []) now)))
    ∧ (¬ (cfg.wakesoundThreshold < score ∧ score < 162 / 100) →
        onWakeSoundScore cfg st labels score now = (st, none)) := by
  refine ⟨?_, ?_, ?_⟩
  · by_cases h : cfg.wakesoundThreshold < score ∧ score < 162 / 100 <;>
      simp [onWakeSoundScore, h]
  · intro h1 h2
    simp [onWakeSoundScore, h1, h2]
  · intro h
    simp [onWakeSoundScore, h]

/-- Witness for C7, the spec's own scenario: a score of 1.9 exceeds the
0.75 threshold but not the 1.62 ceiling, so the tracker state is
unchanged and no event is emitted. -/
theorem wake_score_gate_witness :
    ¬ (cfgJarvis.wakesoundThreshold < 19 / 10 ∧ (19 : ℚ) / 10 < 162 / 100) ∧
      onWakeSoundScore cfgJarvis (TrackerState.mk (some 3) (1 / 2)) []
          (19 / 10) 5 =
        (TrackerState.mk (some 3) (1 / 2), none) := by
  have hn : ¬ (cfgJarvis.wakesoundThreshold < 19 / 10 ∧
      (19 : ℚ) / 10 < 162 / 100) := by norm_num [cfgJarvis]
  exact ⟨hn,
    (wake_score_gate cfgJarvis (TrackerState.mk (some 3) (1 / 2)) []
      (19 / 10) 5).2.2 hn⟩

/-- Claim C9: a throwing ASR yields exactly an error event with the
tracker state untouched and no result; an empty transcription yields
exactly an empty-recognition discard, again with the state untouched,
and a discard is not an error event. -/
theorem asr_failure_isolated (cfg : Config) (st : Option Int) (v : Bool)
    (m : Str) :
    transcribeAndParse cfg st (AsrOutcome.err m) v =
      ([PipelineEvent.errorEvent m], st) ∧
      transcribeAndParse cfg st (AsrOutcome.ok []) v =
        ([PipelineEvent.discardedEmpty], st) ∧
      (∀ txt orig vs, PipelineEvent.resultEvent txt orig vs ∉
        (transcribeAndParse cfg st (AsrOutcome.err m) v).1) ∧
      (∀ m2, PipelineEvent.discardedEmpty ≠ PipelineEvent.errorEvent m2) := by
  refine ⟨rfl, rfl, ?_, by simp⟩
  intro txt orig vs
  simp [transcribeAndParse]

/-- Witness for C9: a concrete ASR failure emits only the error event
and keeps the stored trigger timestamp. -/
theorem asr_failure_isolated_witness :
    transcribeAndParse cfgJarvis (some 9) (AsrOutcome.err ("boom".toList))
        false =
      ([PipelineEvent.errorEvent ("boom".toList)], some 9) :=
  (asr_failure_isolated cfgJarvis (some 9) false ("boom".toList)).1

/-- Claim C10: numeric options explicitly set to 0 fall back to their
defaults (index 2, threshold 0.75, VAD threshold 0.75) because `||`
treats 0 as absent, while `cleanup` alone distinguishes an explicit
`false` from an omitted option; the other boolean flags resolve an
explicit `false` identically to an omission. -/
theorem falsy_option_defaults (c : RawOptions) :
    (c.wakesoundIndex = some 0 → (resolveOptions c).wakesoundIndex = 2) ∧
      (c.wakesoundThreshold = some 0 →
        (resolveOptions c).wakesoundThreshold = 75 / 100) ∧
      (c.vadThreshold = some 0 → (resolveOptions c).vadThreshold = 75 / 100) ∧
      (c.cleanup = some false → (resolveOptions c).cleanup = false) ∧
      (c.cleanup = none → (resolveOptions c).cleanup = true) ∧
      (c.debugWakeSound = some false →
        (resolveOptions c).debugWakeSound = jsOrBool none false) ∧
      (c.requireWakeSound = some false →
        (resolveOptions c).requireWakeSound = jsOrBool none false) := by
  refine ⟨?_, ?_, ?_, ?_, ?_, ?_, ?_⟩ <;> intro h <;>
    simp [resolveOptions, jsOrQ, jsOrNat, jsOrBool, h]

/-- Witness for C10: with every numeric option explicitly 0 the defaults
win, while an explicit `cleanup: false` survives. -/
theorem falsy_option_defaults_witness :
    (resolveOptions rawZeros).wakesoundIndex = 2 ∧
      (resolveOptions rawZeros).wakesoundThreshold = 75 / 100 ∧
      (resolveOptions rawZeros).vadThreshold = 75 / 100 ∧
      (resolveOptions rawZeros).cleanup = false := by
  have h := falsy_option_defaults rawZeros
  exact ⟨h.1 rfl, h.2.1 rfl, h.2.2.1 rfl, h.2.2.2.1 rfl⟩

end AudioConsole
